import Mathlib

/-!
Verification of the LightDock GSO engine (lightdock-rust).

Shallow embedding conventions:
* `f64` values are modelled by `ℚ`; all arithmetic on the paths the claims
  exercise is exact, so no rounding model is needed.
* The analytic primitives `f64::sqrt`, `f64::acos`, `f64::sin` have no exact
  rational counterpart; every definition that uses them is parameterised by
  explicit functions `fsqrt`, `facos`, `fsin : ℚ → ℚ`, and all theorems hold
  for every choice of these parameters.
* Rust `Vec` indexing that the program only performs in bounds is modelled by
  `List.getD` with a default; out-of-bounds indexing that the program can
  actually hit (a panic) is modelled by `Option` (`none` = panic).
* IEEE-754 special-value behaviour (division by zero producing `inf`/`NaN`)
  is modelled separately by the small `FP` type at the end of the
  definitions, used only where a claim is specifically about it.
-/

/-! ## Constants (src/constants.rs, src/dna.rs) -/

def DEFAULT_TRANSLATION_STEP : ℚ := 0.5

def DEFAULT_ROTATION_STEP : ℚ := 0.5

def LINEAR_THRESHOLD : ℚ := 0.9995

def INTERFACE_CUTOFF : ℚ := 3.9

def INTERFACE_CUTOFF2 : ℚ := INTERFACE_CUTOFF * INTERFACE_CUTOFF

def MEMBRANE_PENALTY_SCORE : ℚ := 999.0

def DEFAULT_NMODES_STEP : ℚ := 0.5

/-! ## Quat algebra (src/qt.rs) -/

/-- Quat with four real (here: rational) components, as in `qt.rs`. -/
structure Quat where
  w : ℚ
  x : ℚ
  y : ℚ
  z : ℚ
deriving DecidableEq, Repr

namespace Quat

/-- Rust `Quat::new(w, x, y, z)`. -/
def new (w x y z : ℚ) : Quat := ⟨w, x, y, z⟩

/-- Rust `Quat::conjugate`. -/
def conjugate (q : Quat) : Quat := ⟨q.w, -q.x, -q.y, -q.z⟩

/-- Rust `Quat::dot`. -/
def dot (q other : Quat) : ℚ :=
  q.w * other.w + q.x * other.x + q.y * other.y + q.z * other.z

/-- Rust `Quat::norm2`. -/
def norm2 (q : Quat) : ℚ :=
  q.w * q.w + q.x * q.x + q.y * q.y + q.z * q.z

/-- Rust `Quat::norm`; the square root is the explicit parameter. -/
def norm (fsqrt : ℚ → ℚ) (q : Quat) : ℚ :=
  fsqrt (q.w * q.w + q.x * q.x + q.y * q.y + q.z * q.z)

instance : Add Quat :=
  ⟨fun a b => ⟨a.w + b.w, a.x + b.x, a.y + b.y, a.z + b.z⟩⟩

instance : Sub Quat :=
  ⟨fun a b => ⟨a.w - b.w, a.x - b.x, a.y - b.y, a.z - b.z⟩⟩

instance : Neg Quat :=
  ⟨fun a => ⟨-a.w, -a.x, -a.y, -a.z⟩⟩

/-- Rust `impl Mul for Quat` (Hamilton product). -/
instance : Mul Quat :=
  ⟨fun a b =>
    ⟨a.w * b.w - a.x * b.x - a.y * b.y - a.z * b.z,
     a.w * b.x + a.x * b.w + a.y * b.z - a.z * b.y,
     a.w * b.y - a.x * b.z + a.y * b.w + a.z * b.x,
     a.w * b.z + a.x * b.y - a.y * b.x + a.z * b.w⟩⟩

/-- Rust `impl Mul<f64> for Quat` (`q * scalar`). -/
instance : HMul Quat ℚ Quat :=
  ⟨fun a s => ⟨s * a.w, s * a.x, s * a.y, s * a.z⟩⟩

/-- Rust `impl Div<f64> for Quat` (`q / scalar`). -/
instance : HDiv Quat ℚ Quat :=
  ⟨fun a s => ⟨a.w / s, a.x / s, a.y / s, a.z / s⟩⟩

/-- Rust `Quat::normalize` (returns the normalised copy; the Rust
method mutates in place, which in the callers below always acts on a local
copy). -/
def normalize (fsqrt : ℚ → ℚ) (q : Quat) : Quat :=
  let n := q.norm fsqrt
  ⟨q.w / n, q.x / n, q.y / n, q.z / n⟩

/-- Rust `Quat::inverse`. -/
def inverse (q : Quat) : Quat := q.conjugate / q.norm2

/-- Rust `Quat::rotate` on a 3-vector given as components. -/
def rotate (q : Quat) (v0 v1 v2 : ℚ) : ℚ × ℚ × ℚ :=
  let v : Quat := ⟨0, v0, v1, v2⟩
  let r := q * v * q.inverse
  (r.x, r.y, r.z)

/-- Rust `Quat::slerp` (qt.rs lines 74-98), translated statement by
statement; `fsqrt`, `facos`, `fsin` stand for `f64::sqrt`, `f64::acos`,
`f64::sin`. -/
def slerp (fsqrt facos fsin : ℚ → ℚ) (self other : Quat) (t : ℚ) :
    Quat :=
  let q1 := self.normalize fsqrt
  let q2 := other.normalize fsqrt
  let qdot := q1.dot q2
  let q1 := if qdot < 0 then -q1 else q1
  let qdot := if qdot < 0 then qdot * (-1) else qdot
  if qdot > LINEAR_THRESHOLD then
    (q1 + (q2 - q1) * t).normalize fsqrt
  else
    let qdot2 := max (min qdot 1) (-1)
    let omega := facos qdot2
    let so := fsin omega
    q1 * (fsin ((1 - t) * omega) / so) + q2 * (fsin (t * omega) / so)

/-- Modelled from the spec's SLERP algorithm (spec section 4.1, steps 1-4),
word for word: normalize both inputs into local copies; compute the dot
product and negate `q1` and the dot if the dot is negative; if the dot
exceeds the linear threshold 0.9995 return the normalisation of
`q1 + (q2 - q1) * t`; otherwise clamp the dot to `[-1, 1]`, set
`omega = acos(dot)`, `so = sin(omega)` and return
`q1 * sin((1-t)*omega)/so + q2 * sin(t*omega)/so`. -/
def slerpSpec (fsqrt facos fsin : ℚ → ℚ) (self other : Quat) (t : ℚ) :
    Quat :=
  let q1 := self.normalize fsqrt
  let q2 := other.normalize fsqrt
  let d := q1.dot q2
  let q1 := if d < 0 then -q1 else q1
  let d := if d < 0 then -d else d
  if d > (0.9995 : ℚ) then
    (q1 + (q2 - q1) * t).normalize fsqrt
  else
    let d := min 1 (max (-1) d)
    let omega := facos d
    let so := fsin omega
    q1 * (fsin ((1 - t) * omega) / so) + q2 * (fsin (t * omega) / so)

end Quat

/-! ## Scoring data model (src/scoring.rs) -/

/-- A 3-vector of coordinates, Rust `[f64; 3]`. -/
structure V3 where
  x : ℚ
  y : ℚ
  z : ℚ
deriving DecidableEq, Repr

/-- Rust `Quat::rotate` applied to a `V3`. -/
def rotateV3 (q : Quat) (v : V3) : V3 :=
  let r := q.rotate v.x v.y v.z
  ⟨r.1, r.2.1, r.2.2⟩

/-- Rust `DockingModel` (scoring.rs lines 31-39).  The `HashMap<String,
Vec<usize>>` restraint maps are modelled as association lists; the functions
below only iterate over the entries and count, so the representation choice
is immaterial. -/
structure DockingModel where
  atoms : List ℕ
  coordinates : List V3
  membrane : List ℕ
  active_restraints : List (String × List ℕ)
  passive_restraints : List (String × List ℕ)
  nmodes : List ℚ
  num_anm : ℕ
deriving DecidableEq, Repr

/-- Rust `satisfied_restraints` (glowworm.rs lines 244-259, identical copy in
scoring position of the older files): percentage of restraint entries having
at least one atom index flagged `1` in the interface vector. -/
def satisfied_restraints (interface : List ℕ)
    (restraints : List (String × List ℕ)) : ℚ :=
  if restraints = [] then 0
  else
    ((restraints.countP fun kv =>
        kv.2.any fun i => decide (interface.getD i 0 = 1) : ℕ) : ℚ) /
      (restraints.length : ℚ)

/-- Rust `membrane_intersection` (glowworm.rs lines 261-270): fraction of
membrane bead indices whose interface flag is set. -/
def membrane_intersection (interface : List ℕ) (membrane : List ℕ) : ℚ :=
  if membrane = [] then 0
  else
    (((membrane.map fun i => interface.getD i 0).sum : ℕ) : ℚ) /
      (membrane.length : ℚ)

/-- The `Score` trait of scoring.rs (lines 46-54): `energy` receives the two
models, the already-posed coordinates and the zero-initialised interface
vectors, and returns the energy; the mutation of the two interface vectors
through `&mut` is modelled by returning their final values. -/
structure ScoreFn where
  energy : DockingModel → DockingModel → List V3 → List V3 →
    List ℕ → List ℕ → ℚ × List ℕ × List ℕ

/-! ## Glowworm (src/glowworm.rs) -/

/-- Rust `Glowworm` (glowworm.rs lines 8-30).  The `scoring_function` trait
object is passed explicitly to `compute_luciferin` instead of being stored,
and the two `&DockingModel` references are stored by value. -/
structure Glowworm where
  id : ℕ
  translation : List ℚ
  rotation : Quat
  rec_nmodes : List ℚ
  lig_nmodes : List ℚ
  receptor : DockingModel
  ligand : DockingModel
  rho : ℚ
  gamma : ℚ
  beta : ℚ
  luciferin : ℚ
  vision_range : ℚ
  max_vision_range : ℚ
  max_neighbors : ℕ
  neighbors : List ℕ
  probabilities : List ℚ
  scoring : ℚ
  moved : Bool
  step : ℕ
  use_anm : Bool
deriving DecidableEq, Repr

namespace Glowworm

/-- Rust `Glowworm::new` (glowworm.rs lines 33-59). -/
def new (id : ℕ) (translation : List ℚ) (rotation : Quat)
    (rec_nmodes lig_nmodes : List ℚ) (receptor ligand : DockingModel)
    (use_anm : Bool) : Glowworm where
  id := id
  translation := translation
  rotation := rotation
  rec_nmodes := rec_nmodes
  lig_nmodes := lig_nmodes
  receptor := receptor
  ligand := ligand
  rho := 0.5
  gamma := 0.4
  beta := 0.08
  luciferin := 5.0
  vision_range := 0.2
  max_vision_range := 5.0
  max_neighbors := 5
  neighbors := []
  probabilities := []
  scoring := 0.0
  moved := false
  step := 0
  use_anm := use_anm

end Glowworm

/-- ANM displacement of one atom: the inner `for i_nm in 0..num_anm` loops of
`compute_luciferin` (glowworm.rs lines 76-97) and of the `energy`
implementations, with the documented mode-major flattening
`i = i_nm * num_atoms * 3 + i_atom * 3 + coord`. -/
def anmDisplace (nmodes : List ℚ) (numAtoms numAnm : ℕ) (coeffs : List ℚ)
    (iAtom : ℕ) (c : V3) : V3 :=
  (List.range numAnm).foldl
    (fun acc iNm =>
      ⟨acc.x + nmodes.getD (iNm * numAtoms * 3 + iAtom * 3) 0 *
          coeffs.getD iNm 0,
       acc.y + nmodes.getD (iNm * numAtoms * 3 + iAtom * 3 + 1) 0 *
          coeffs.getD iNm 0,
       acc.z + nmodes.getD (iNm * numAtoms * 3 + iAtom * 3 + 2) 0 *
          coeffs.getD iNm 0⟩)
    c

/-- Ligand pose: rotate each atom, translate it, then apply ANM displacement
(glowworm.rs lines 65-85; the same block appears in dfire.rs lines 236-257
and dna.rs lines 382-403).  The model is passed as its three relevant pieces
so that the same definition serves the `DockingModel` of scoring.rs and the
`DNADockingModel` of dna.rs. -/
def poseLigand (coordinates : List V3) (nmodes : List ℚ) (num_anm : ℕ)
    (useAnm : Bool) (translation : List ℚ) (rotation : Quat)
    (ligCoeffs : List ℚ) : List V3 :=
  let n := coordinates.length
  coordinates.enum.map fun p =>
    let r := rotateV3 rotation p.2
    let b : V3 := ⟨r.x + translation.getD 0 0, r.y + translation.getD 1 0,
      r.z + translation.getD 2 0⟩
    if useAnm = true ∧ 0 < num_anm then
      anmDisplace nmodes n num_anm ligCoeffs p.1 b
    else b

/-- Receptor pose: ANM displacement only (glowworm.rs lines 87-98; same block
in dfire.rs lines 259-270 and dna.rs lines 405-416). -/
def poseReceptor (coordinates : List V3) (nmodes : List ℚ) (num_anm : ℕ)
    (useAnm : Bool) (recCoeffs : List ℚ) : List V3 :=
  let n := coordinates.length
  coordinates.enum.map fun p =>
    if useAnm = true ∧ 0 < num_anm then
      anmDisplace nmodes n num_anm recCoeffs p.1 p.2
    else p.2

namespace Glowworm

/-- Rust `Glowworm::compute_luciferin` (glowworm.rs lines 61-122). -/
def compute_luciferin (score : ScoreFn) (g : Glowworm) : Glowworm :=
  let g1 :=
    if g.moved = true ∨ g.step = 0 then
      let receptor_coordinates := poseReceptor g.receptor.coordinates
        g.receptor.nmodes g.receptor.num_anm g.use_anm g.rec_nmodes
      let ligand_coordinates := poseLigand g.ligand.coordinates
        g.ligand.nmodes g.ligand.num_anm g.use_anm g.translation g.rotation
        g.lig_nmodes
      let interface_receptor : List ℕ :=
        List.replicate receptor_coordinates.length 0
      let interface_ligand : List ℕ :=
        List.replicate ligand_coordinates.length 0
      let r := score.energy g.receptor g.ligand receptor_coordinates
        ligand_coordinates interface_receptor interface_ligand
      let energy := r.1
      let perc_receptor := satisfied_restraints r.2.1 g.receptor.active_restraints
      let perc_ligand := satisfied_restraints r.2.2 g.ligand.active_restraints
      let intersection := membrane_intersection r.2.1 g.receptor.membrane
      let membrane_penalty :=
        if intersection > 0 then MEMBRANE_PENALTY_SCORE * intersection else 0
      { g with scoring := energy + perc_receptor * energy +
          perc_ligand * energy - membrane_penalty }
    else g
  { g1 with
    luciferin := (1 - g.rho) * g.luciferin + g.gamma * g1.scoring,
    step := g.step + 1 }

/-- Rust `Glowworm::distance` (glowworm.rs lines 124-132); the free function
`distance` at lines 233-242 has the identical body and is modelled by this
same definition. -/
def distance (fsqrt : ℚ → ℚ) (g other : Glowworm) : ℚ :=
  let x1 := g.translation.getD 0 0
  let x2 := other.translation.getD 0 0
  let y1 := g.translation.getD 1 0
  let y2 := other.translation.getD 1 0
  let z1 := g.translation.getD 2 0
  let z2 := other.translation.getD 2 0
  fsqrt ((x1 - x2) * (x1 - x2) + (y1 - y2) * (y1 - y2) + (z1 - z2) * (z1 - z2))

/-- Rust `Glowworm::is_neighbor` (glowworm.rs lines 134-139). -/
def is_neighbor (fsqrt : ℚ → ℚ) (g other : Glowworm) : Bool :=
  if g.id ≠ other.id ∧ g.luciferin < other.luciferin then
    decide (distance fsqrt g other < g.vision_range)
  else false

/-- Rust `Glowworm::update_vision_range` (glowworm.rs lines 141-145); the
neighbour-count difference is computed in `i32` exactly as the source does. -/
def update_vision_range (g : Glowworm) : Glowworm :=
  let vr := min g.max_vision_range
    (max 0 (g.vision_range +
      g.beta * (((g.max_neighbors : ℤ) - (g.neighbors.length : ℤ) : ℤ) : ℚ)))
  { g with vision_range := vr }

/-- Rust `Glowworm::compute_probability_moving_toward_neighbor` (glowworm.rs
lines 147-161). -/
def compute_probability_moving_toward_neighbor (g : Glowworm)
    (luciferins : List ℚ) : Glowworm :=
  let diffs := g.neighbors.map fun nid => luciferins.getD nid 0 - g.luciferin
  let total_sum := diffs.sum
  { g with probabilities := diffs.map fun d => d / total_sum }

end Glowworm

/-- The `while sum_probabilities < random_number` loop of
`select_random_neighbor` (glowworm.rs lines 169-174): starting from the
accumulated `sum`, consume entries of the probability vector until the sum is
no longer `< u`; returns the number of consumed entries (the final value of
`i`), or `none` when the vector is exhausted while still `sum < u`, which in
Rust is an out-of-bounds panic on `self.probabilities[i]`. -/
def selectScan (u : ℚ) : ℚ → List ℚ → Option ℕ
  | sum, [] => if sum < u then none else some 0
  | sum, p :: rest =>
    if sum < u then (selectScan u (sum + p) rest).map (· + 1) else some 0

namespace Glowworm

/-- Rust `Glowworm::select_random_neighbor` (glowworm.rs lines 164-176).
`none` models a panic: either the scan ran past the probability vector, or
the loop body never ran (final `i = 0`) and `self.neighbors[i - 1]`
underflows the `usize` index, or `i - 1` is out of bounds of `neighbors`. -/
def select_random_neighbor (g : Glowworm) (random_number : ℚ) : Option ℕ :=
  if g.neighbors = [] then some g.id
  else
    match selectScan random_number 0 g.probabilities with
    | none => none
    | some i => if i = 0 then none else g.neighbors.get? (i - 1)

end Glowworm

/-- The ANM-coefficient step of `move_towards` (glowworm.rs lines 199-228,
one block for the receptor modes and an identical one for the ligand modes):
delta vector toward the target coefficients, its Euclidean norm, scale by
`DEFAULT_NMODES_STEP / norm`, add. -/
def moveCoeffs (fsqrt : ℚ → ℚ) (cur target : List ℚ) : List ℚ :=
  let delta := (List.range cur.length).map fun i => target.getD i 0 - cur.getD i 0
  let cum_norm := (delta.map fun d => d * d).sum
  let anm_norm := fsqrt cum_norm
  let coef := DEFAULT_NMODES_STEP / anm_norm
  (List.range cur.length).map fun i => cur.getD i 0 + delta.getD i 0 * coef

namespace Glowworm

/-- Rust `Glowworm::move_towards` (glowworm.rs lines 178-230). -/
def move_towards (fsqrt facos fsin : ℚ → ℚ) (g : Glowworm) (other_id : ℕ)
    (other_position : List ℚ) (other_rotation : Quat)
    (other_anm_rec other_anm_lig : List ℚ) : Glowworm :=
  if g.id ≠ other_id then
    let t0 := g.translation.getD 0 0
    let t1 := g.translation.getD 1 0
    let t2 := g.translation.getD 2 0
    let d0 := other_position.getD 0 0 - t0
    let d1 := other_position.getD 1 0 - t1
    let d2 := other_position.getD 2 0 - t2
    let norm := fsqrt (d0 * d0 + d1 * d1 + d2 * d2)
    let coef := DEFAULT_TRANSLATION_STEP / norm
    let rec2 :=
      if g.use_anm = true ∧ 0 < g.receptor.num_anm then
        moveCoeffs fsqrt g.rec_nmodes other_anm_rec
      else g.rec_nmodes
    let lig2 :=
      if g.use_anm = true ∧ 0 < g.ligand.num_anm then
        moveCoeffs fsqrt g.lig_nmodes other_anm_lig
      else g.lig_nmodes
    { g with
      moved := true,
      translation := [t0 + d0 * coef, t1 + d1 * coef, t2 + d2 * coef],
      rotation := Quat.slerp fsqrt facos fsin g.rotation other_rotation
        DEFAULT_ROTATION_STEP,
      rec_nmodes := rec2,
      lig_nmodes := lig2 }
  else { g with moved := false }

end Glowworm

/-! ## Swarm (src/swarm.rs) -/

/-- Rust `Swarm` (swarm.rs lines 10-13). -/
structure Swarm where
  glowworms : List Glowworm
deriving DecidableEq, Repr

namespace Swarm

/-- Rust `Swarm::add_glowworms` (swarm.rs lines 28-53); the `scoring`
reference the Rust glowworm stores is supplied later, at `compute_luciferin`
time (see `Glowworm`). -/
def add_glowworms (s : Swarm) (positions : List (List ℚ))
    (receptor ligand : DockingModel) (use_anm : Bool) : Swarm :=
  ⟨s.glowworms ++ positions.enum.map fun ip =>
    let p := ip.2
    let translation := [p.getD 0 0, p.getD 1 0, p.getD 2 0]
    let rotation := Quat.new (p.getD 3 0) (p.getD 4 0) (p.getD 5 0) (p.getD 6 0)
    let rec_nmodes :=
      if use_anm = true ∧ 0 < receptor.num_anm then
        (List.range' 7 receptor.num_anm).map fun j => p.getD j 0
      else []
    let lig_nmodes :=
      if use_anm = true ∧ 0 < ligand.num_anm then
        (List.range' (7 + receptor.num_anm)
          (p.length - (7 + receptor.num_anm))).map fun j => p.getD j 0
      else []
    Glowworm.new ip.1 translation rotation rec_nmodes lig_nmodes
      receptor ligand use_anm⟩

/-- Rust `Swarm::update_luciferin` (swarm.rs lines 55-59). -/
def update_luciferin (score : ScoreFn) (s : Swarm) : Swarm :=
  ⟨s.glowworms.map (Glowworm.compute_luciferin score)⟩

end Swarm

/-- Sequential fallible map with the running index, modelling the final
`for i in 0..self.glowworms.len()` loop of `movement_phase`: the loop body
for index `i` either produces the updated glowworm or panics (`none`), in
which case the whole phase panics. -/
def optionIMap (f : ℕ → Glowworm → Option Glowworm) :
    ℕ → List Glowworm → Option (List Glowworm)
  | _, [] => some []
  | i, a :: rest =>
    match f i a with
    | none => none
    | some b => (optionIMap f (i + 1) rest).map (b :: ·)

namespace Swarm

/-- The first two passes of `Swarm::movement_phase` (swarm.rs lines 74-102):
all-pairs neighbour search over indices `i ≠ j` (using the free `distance`
function), then per-glowworm assignment of the neighbour list and probability
computation from the vector of current luciferins. -/
def movementPrep (fsqrt : ℚ → ℚ) (s : Swarm) : List Glowworm :=
  let idx := s.glowworms.enum
  let luciferins := s.glowworms.map (·.luciferin)
  idx.map fun ig =>
    let nbrs := (idx.filter fun jg =>
      decide (ig.1 ≠ jg.1) && decide (ig.2.luciferin < jg.2.luciferin) &&
        decide (Glowworm.distance fsqrt ig.2 jg.2 < ig.2.vision_range)).map
      fun jg => jg.2.id
    Glowworm.compute_probability_moving_toward_neighbor
      { ig.2 with neighbors := nbrs } luciferins

/-- Rust `Swarm::movement_phase` (swarm.rs lines 61-115).  `rand i` is the
`i`-th draw of `rng.gen::<f64>()` (the draws happen in index order).  The
four snapshot vectors are taken from `s` before any glowworm mutates.
`none` models a panic inside `select_random_neighbor`. -/
def movement_phase (fsqrt facos fsin : ℚ → ℚ) (s : Swarm) (rand : ℕ → ℚ) :
    Option Swarm :=
  let positions := s.glowworms.map (·.translation)
  let rotations := s.glowworms.map (·.rotation)
  let anm_recs := s.glowworms.map (·.rec_nmodes)
  let anm_ligs := s.glowworms.map (·.lig_nmodes)
  (optionIMap (fun i g =>
    match g.select_random_neighbor (rand i) with
    | none => none
    | some neighbor_id =>
      some (Glowworm.update_vision_range
        (g.move_towards fsqrt facos fsin neighbor_id
          (positions.getD neighbor_id [])
          (rotations.getD neighbor_id (Quat.new 1 0 0 0))
          (anm_recs.getD neighbor_id [])
          (anm_ligs.getD neighbor_id []))))
    0 (movementPrep fsqrt s)).map Swarm.mk

end Swarm

/-! ## DFIRE scoring (src/dfire.rs) -/

/-- Rust `DIST_TO_BINS` (dfire.rs lines 46-48). -/
def DIST_TO_BINS : List ℕ :=
  [1, 1, 1, 2, 3, 4, 5, 6, 7, 8, 9, 10, 11, 12, 13, 14, 14, 15, 15,
   16, 16, 17, 17, 18, 18, 19, 19, 20, 20, 21, 21, 22, 22, 23, 23,
   24, 24, 25, 25, 26, 26, 27, 27, 28, 28, 29, 29, 30, 30, 31]

/-- Rust `expr as usize` for an `f64` value: truncation toward zero,
saturating at 0 for negative values.  For the values arising here (always
`≥ -1`) this coincides with `Int.toNat ∘ Int.floor`. -/
def f64AsUsize (q : ℚ) : ℕ := (⌊q⌋).toNat

/-- Rust `DFIRE` (dfire.rs lines 176-181).  `DFIREDockingModel` has exactly
the fields of `DockingModel`, which is reused here. -/
structure DFIRE where
  potential : List ℚ
  receptor : DockingModel
  ligand : DockingModel
  use_anm : Bool

/-- The pairwise double loop of `DFIRE::energy` (dfire.rs lines 271-293):
threading the accumulated score and the two interface vectors over all
receptor-atom/ligand-atom pairs. -/
def dfireLoop (fsqrt : ℚ → ℚ) (d : DFIRE)
    (receptor_coordinates ligand_coordinates : List V3) :
    ℚ × List ℕ × List ℕ :=
  receptor_coordinates.enum.foldl
    (fun acc ira =>
      let i := ira.1
      let ra := ira.2
      let atoma := d.receptor.atoms.getD i 0
      ligand_coordinates.enum.foldl
        (fun acc2 jla =>
          let j := jla.1
          let la := jla.2
          let dist := (ra.x - la.x) * (ra.x - la.x) +
            (ra.y - la.y) * (ra.y - la.y) + (ra.z - la.z) * (ra.z - la.z)
          if dist ≤ 225 then
            let atomb := d.ligand.atoms.getD j 0
            let dd := fsqrt dist * 2 - 1
            let dfire_bin := DIST_TO_BINS.getD (f64AsUsize dd) 0 - 1
            let score := acc2.1 +
              d.potential.getD (atoma * 168 * 20 + atomb * 20 + dfire_bin) 0
            if dd ≤ INTERFACE_CUTOFF then
              (score, acc2.2.1.set i 1, acc2.2.2.set j 1)
            else (score, acc2.2)
          else acc2)
        acc)
    (0, List.replicate receptor_coordinates.length 0,
      List.replicate ligand_coordinates.length 0)

namespace DFIRE

/-- Rust `DFIRE::energy` as `impl Score for DFIRE` (dfire.rs lines 228-310):
pose both molecules, run the pairwise loop, convert the raw sum with the
DFIRE affine transform, then apply the restraint/membrane bias. -/
def energy (fsqrt : ℚ → ℚ) (d : DFIRE) (translation : List ℚ)
    (rotation : Quat) (rec_nmodes lig_nmodes : List ℚ) : ℚ :=
  let receptor_coordinates := poseReceptor d.receptor.coordinates
    d.receptor.nmodes d.receptor.num_anm d.use_anm rec_nmodes
  let ligand_coordinates := poseLigand d.ligand.coordinates d.ligand.nmodes
    d.ligand.num_anm d.use_anm translation rotation lig_nmodes
  let r := dfireLoop fsqrt d receptor_coordinates ligand_coordinates
  let score := (r.1 * 0.0157 - 4.7) * (-1)
  let perc_receptor := satisfied_restraints r.2.1 d.receptor.active_restraints
  let perc_ligand := satisfied_restraints r.2.2 d.ligand.active_restraints
  let intersection := membrane_intersection r.2.1 d.receptor.membrane
  let membrane_penalty :=
    if intersection > 0 then MEMBRANE_PENALTY_SCORE * intersection else 0
  score + perc_receptor * score + perc_ligand * score - membrane_penalty

end DFIRE

/-! ## DNA scoring (src/dna.rs) -/

def EPSILON : ℚ := 4.0

def FACTOR : ℚ := 332.0

def MAX_ES_CUTOFF : ℚ := 1.0

def MIN_ES_CUTOFF : ℚ := -1.0

def VDW_CUTOFF : ℚ := 1.0

def ELEC_DIST_CUTOFF : ℚ := 30.0

def ELEC_DIST_CUTOFF2 : ℚ := ELEC_DIST_CUTOFF * ELEC_DIST_CUTOFF

def VDW_DIST_CUTOFF : ℚ := 10.0

def VDW_DIST_CUTOFF2 : ℚ := VDW_DIST_CUTOFF * VDW_DIST_CUTOFF

def ELEC_MAX_CUTOFF : ℚ := MAX_ES_CUTOFF * EPSILON / FACTOR

def ELEC_MIN_CUTOFF : ℚ := MIN_ES_CUTOFF * EPSILON / FACTOR

/-- Rust `DNADockingModel` (dna.rs lines 230-241). -/
structure DNADockingModel where
  atoms : List ℕ
  coordinates : List V3
  membrane : List ℕ
  active_restraints : List (String × List ℕ)
  passive_restraints : List (String × List ℕ)
  num_anm : ℕ
  nmodes : List ℚ
  vdw_radii : List ℚ
  vdw_charges : List ℚ
  ele_charges : List ℚ

/-- Rust `DNA` (dna.rs lines 349-354). -/
structure DNA where
  potential : List ℚ
  receptor : DNADockingModel
  ligand : DNADockingModel
  use_anm : Bool

/-- The pairwise double loop of `DNA::energy` (dna.rs lines 421-460):
electrostatics with clamping, van der Waals with cutoff, and interface
marking, threading `(total_elec, total_vdw, interface_receptor,
interface_ligand)`. -/
def dnaLoop (fsqrt : ℚ → ℚ) (d : DNA)
    (receptor_coordinates ligand_coordinates : List V3) :
    ℚ × ℚ × List ℕ × List ℕ :=
  receptor_coordinates.enum.foldl
    (fun acc ira =>
      let i := ira.1
      let ra := ira.2
      ligand_coordinates.enum.foldl
        (fun acc2 jla =>
          let j := jla.1
          let la := jla.2
          let (te, tv, ir, il) := acc2
          let distance2 := (ra.x - la.x) * (ra.x - la.x) +
            (ra.y - la.y) * (ra.y - la.y) + (ra.z - la.z) * (ra.z - la.z)
          let te :=
            if distance2 ≤ ELEC_DIST_CUTOFF2 then
              let atom_elec := d.receptor.ele_charges.getD i 0 *
                d.ligand.ele_charges.getD j 0 / distance2
              let atom_elec :=
                if atom_elec > ELEC_MAX_CUTOFF then ELEC_MAX_CUTOFF
                else atom_elec
              let atom_elec :=
                if atom_elec < ELEC_MIN_CUTOFF then ELEC_MIN_CUTOFF
                else atom_elec
              te + atom_elec
            else te
          let tv :=
            if distance2 ≤ VDW_DIST_CUTOFF2 then
              let vdw_energy := fsqrt (d.receptor.vdw_charges.getD i 0 *
                d.ligand.vdw_charges.getD j 0)
              let vdw_radius := d.receptor.vdw_radii.getD i 0 +
                d.ligand.vdw_radii.getD j 0
              let p6 := vdw_radius ^ (6 : ℕ) / distance2 ^ (3 : ℕ)
              let k := vdw_energy * (p6 * p6 - 2.0 * p6)
              let k := if k > VDW_CUTOFF then VDW_CUTOFF else k
              tv + k
            else tv
          if distance2 ≤ INTERFACE_CUTOFF2 then
            (te, tv, ir.set i 1, il.set j 1)
          else (te, tv, ir, il))
        acc)
    (0, 0, List.replicate receptor_coordinates.length 0,
      List.replicate ligand_coordinates.length 0)

namespace DNA

/-- Rust `DNA::energy` as `impl Score for DNA` (dna.rs lines 373-477). -/
def energy (fsqrt : ℚ → ℚ) (d : DNA) (translation : List ℚ)
    (rotation : Quat) (rec_nmodes lig_nmodes : List ℚ) : ℚ :=
  let receptor_coordinates := poseReceptor d.receptor.coordinates
    d.receptor.nmodes d.receptor.num_anm d.use_anm rec_nmodes
  let ligand_coordinates := poseLigand d.ligand.coordinates d.ligand.nmodes
    d.ligand.num_anm d.use_anm translation rotation lig_nmodes
  let r := dnaLoop fsqrt d receptor_coordinates ligand_coordinates
  let total_elec := r.1 * FACTOR / EPSILON
  let score := (total_elec + r.2.1) * (-1)
  let perc_receptor := satisfied_restraints r.2.2.1 d.receptor.active_restraints
  let perc_ligand := satisfied_restraints r.2.2.2 d.ligand.active_restraints
  let intersection := membrane_intersection r.2.2.1 d.receptor.membrane
  let membrane_penalty :=
    if intersection > 0 then MEMBRANE_PENALTY_SCORE * intersection else 0
  score + perc_receptor * score + perc_ligand * score - membrane_penalty

end DNA

/-! ## IEEE special-value model for the zero-norm degeneracy (claim about
glowworm.rs `move_towards`) -/

/-- Model of an `f64` for the division-by-zero paths: a finite value (exact,
`finite 0` standing for `+0.0` — every zero produced on the paths analysed
below is IEEE `+0.0`, e.g. `x - x`), the two infinities, or NaN. -/
inductive FP where
  | finite : ℚ → FP
  | inf : FP
  | ninf : FP
  | nan : FP
deriving DecidableEq, Repr

namespace FP

/-- IEEE addition on the special values; finite addition is exact (no
rounding occurs on the analysed paths). -/
def add : FP → FP → FP
  | nan, _ => nan
  | _, nan => nan
  | inf, ninf => nan
  | ninf, inf => nan
  | inf, _ => inf
  | _, inf => inf
  | ninf, _ => ninf
  | _, ninf => ninf
  | finite a, finite b => finite (a + b)

/-- IEEE negation. -/
def neg : FP → FP
  | nan => nan
  | inf => ninf
  | ninf => inf
  | finite a => finite (-a)

/-- IEEE subtraction. -/
def sub (a b : FP) : FP := a.add b.neg

/-- IEEE multiplication; `0 * ±inf = NaN`. -/
def mul : FP → FP → FP
  | nan, _ => nan
  | _, nan => nan
  | inf, inf => inf
  | inf, ninf => ninf
  | ninf, inf => ninf
  | ninf, ninf => inf
  | inf, finite b => if 0 < b then inf else if b < 0 then ninf else nan
  | finite a, inf => if 0 < a then inf else if a < 0 then ninf else nan
  | ninf, finite b => if 0 < b then ninf else if b < 0 then inf else nan
  | finite a, ninf => if 0 < a then ninf else if a < 0 then inf else nan
  | finite a, finite b => finite (a * b)

/-- IEEE division; a nonzero finite value divided by (+)0 gives the signed
infinity, `0/0 = NaN` (the sign of zero is not tracked: `finite 0` is
`+0.0`, the only zero arising on the analysed paths). -/
def div : FP → FP → FP
  | nan, _ => nan
  | _, nan => nan
  | inf, inf => nan
  | inf, ninf => nan
  | ninf, inf => nan
  | ninf, ninf => nan
  | inf, finite b => if 0 ≤ b then inf else ninf
  | ninf, finite b => if 0 ≤ b then ninf else inf
  | finite _, inf => finite 0
  | finite _, ninf => finite 0
  | finite a, finite b =>
    if b = 0 then (if 0 < a then inf else if a < 0 then ninf else nan)
    else finite (a / b)

instance : Add FP := ⟨add⟩

instance : Sub FP := ⟨sub⟩

instance : Mul FP := ⟨mul⟩

instance : Div FP := ⟨div⟩

/-- IEEE square root: NaN for negative or NaN arguments, `inf` at `inf`,
and exactly `+0` at `+0` as IEEE-754 requires (the only finite value the
theorems below evaluate it at); at other finite nonnegative rationals an
integer-square-root approximation stands in for the correctly rounded
result, which no analysed path depends on. -/
def sqrtF : FP → FP
  | nan => nan
  | ninf => nan
  | inf => inf
  | finite a =>
    if a < 0 then nan
    else if a = 0 then finite 0
    else finite ((Nat.sqrt a.num.toNat : ℚ) / (Nat.sqrt a.den : ℚ))

/-- NaN test. -/
def isNaN : FP → Bool
  | nan => true
  | _ => false

end FP

/-- The translation block of `move_towards` (glowworm.rs lines 182-193) over
the IEEE value model: executed when `self.id != other_id`; the displacement
toward the target, its norm, the `DEFAULT_TRANSLATION_STEP / norm` scaling
and the update of the three translation components. -/
def moveTranslationFP (t0 t1 t2 p0 p1 p2 : FP) : FP × FP × FP :=
  let d0 := p0 - t0
  let d1 := p1 - t1
  let d2 := p2 - t2
  let norm := FP.sqrtF (d0 * d0 + d1 * d1 + d2 * d2)
  let coef := FP.finite DEFAULT_TRANSLATION_STEP / norm
  (t0 + d0 * coef, t1 + d1 * coef, t2 + d2 * coef)

/-- The ANM-coefficient block of `move_towards` (glowworm.rs lines 199-213,
and identically 214-228) over the IEEE value model. -/
def moveCoeffsFP (cur target : List FP) : List FP :=
  let delta := (List.range cur.length).map fun i =>
    target.getD i (FP.finite 0) - cur.getD i (FP.finite 0)
  let cum_norm := delta.foldl (fun a d => a + d * d) (FP.finite 0)
  let anm_norm := FP.sqrtF cum_norm
  let coef := FP.finite DEFAULT_NMODES_STEP / anm_norm
  (List.range cur.length).map fun i =>
    cur.getD i (FP.finite 0) + delta.getD i (FP.finite 0) * coef

/-! ## Concrete fixtures for witnesses and counterexamples -/

/-- The constantly-zero stand-in for the analytic primitives, used to
instantiate `fsqrt`/`facos`/`fsin` in concrete evaluations. -/
def zfun : ℚ → ℚ := fun _ => 0

/-- An empty docking model. -/
def emptyDM : DockingModel := ⟨[], [], [], [], [], [], 0⟩

/-- A freshly constructed glowworm at the origin with no ANM. -/
def baseGlowworm : Glowworm :=
  Glowworm.new 0 [0, 0, 0] (Quat.new 1 0 0 0) [] [] emptyDM emptyDM false

/-- A brighter glowworm at the origin (distinct id, higher luciferin). -/
def brightGlowworm : Glowworm := { baseGlowworm with id := 1, luciferin := 7 }

/-- A glowworm with two neighbours and probability vector `[1/2, 1/2]`. -/
def gw6 : Glowworm :=
  { baseGlowworm with neighbors := [3, 9], probabilities := [1/2, 1/2] }

/-- A glowworm with two neighbours and probability vector `[1/3, 2/3]`. -/
def gw10 : Glowworm :=
  { baseGlowworm with neighbors := [4, 5], probabilities := [1/3, 2/3] }

/-- A scoring contract returning the constant energy 7 and leaving the
interface vectors untouched. -/
def scoreConst : ScoreFn := ⟨fun _ _ _ _ ir il => (7, ir, il)⟩

/-- A one-atom docking model that is its own membrane bead and has one
active restraint on that atom. -/
def dmW : DockingModel := ⟨[0], [⟨0, 0, 0⟩], [0], [("A.ALA.1", [0])], [], [], 0⟩

/-- A scoring contract returning energy 10 and flagging every atom of both
molecules as interface. -/
def scoreFlag : ScoreFn :=
  ⟨fun _ _ rc lc _ _ =>
    (10, List.replicate rc.length 1, List.replicate lc.length 1)⟩

/-- A glowworm over the one-atom membrane/restraint models. -/
def gwC1 : Glowworm :=
  Glowworm.new 0 [0, 0, 0] (Quat.new 1 0 0 0) [] [] dmW dmW false

/-- A one-glowworm swarm. -/
def swarmC3 : Swarm := ⟨[baseGlowworm]⟩

/-- The state of `swarmC3` after one movement phase: the single glowworm has
no neighbour, stays in place, and only its vision range grows to 3/5. -/
def swarmC3' : Swarm := ⟨[{ baseGlowworm with vision_range := 3/5 }]⟩

/-- One flat input vector for the swarm-construction witness. -/
def posW0 : List ℚ := [1, 2, 3, 4, 5, 6, 7]

/-- Input positions for the swarm-construction witness. -/
def posW : List (List ℚ) := [posW0]

/-- The glowworm that decoding `posW` must yield. -/
def gW9 : Glowworm :=
  Glowworm.new 0 [1, 2, 3] (Quat.new 4 5 6 7) [] [] emptyDM emptyDM false

/-- Modelled from the claim's words (inverse-CDF sampling): the first index
`k` at which the running inclusive prefix sum `p₀ + ⋯ + p_k` strictly
exceeds `u`. -/
def firstExceedIndex (probs : List ℚ) (u : ℚ) : Option ℕ :=
  (List.range probs.length).find? fun k => decide (u < (probs.take (k + 1)).sum)
/-- The two clamp orders coincide. -/
theorem clamp_comm (d : ℚ) : max (min d 1) (-1) = min 1 (max (-1) d) := by
  rcases le_total d (-1) with h | h
  · rw [min_eq_left (h.trans (by norm_num)), max_eq_right h, max_eq_left h,
      min_eq_right (by norm_num)]
  · rcases le_total d 1 with h2 | h2
    · rw [min_eq_left h2, max_eq_left h, max_eq_right h, min_eq_right h2]
    · rw [min_eq_right h2, max_eq_left (by norm_num),
        max_eq_right ((by norm_num : (-1:ℚ) ≤ 1).trans h2), min_eq_left h2]

/-- C4: for every choice of the analytic primitives and every pair of input
quaternions and every `t`, `slerp` follows exactly the spec's algorithm:
normalize local copies of both inputs, compute the dot product, negate `q1`
and the dot when the dot is negative, take the normalised linear
interpolation when the dot exceeds 0.9995, and otherwise the spherical
formula on the dot clamped to `[-1, 1]`. -/
theorem slerp_follows_spec (fsqrt facos fsin : ℚ → ℚ)
    (q1 q2 : Quat) (t : ℚ) :
    Quat.slerp fsqrt facos fsin q1 q2 t =
      Quat.slerpSpec fsqrt facos fsin q1 q2 t := by
  have hm : ∀ a : ℚ, a * (-1) = -a := fun a => by ring
  simp only [Quat.slerp, Quat.slerpSpec, LINEAR_THRESHOLD, hm, clamp_comm]


/-- C5: for every choice of the square-root primitive and every pair of
glowworms, `is_neighbor a b` is true exactly when the ids differ, `a` is
dimmer than `b`, and their translation distance is strictly below `a`'s
vision range; and the relation is asymmetric: if `is_neighbor a b` holds
then `is_neighbor b a` is false. -/
theorem is_neighbor_characterisation (fsqrt : ℚ → ℚ) (a b : Glowworm) :
    (Glowworm.is_neighbor fsqrt a b = true ↔
      a.id ≠ b.id ∧ a.luciferin < b.luciferin ∧
        Glowworm.distance fsqrt a b < a.vision_range) ∧
    (Glowworm.is_neighbor fsqrt a b = true →
      Glowworm.is_neighbor fsqrt b a = false) := by
  have hiff : ∀ x y : Glowworm, Glowworm.is_neighbor fsqrt x y = true ↔
      x.id ≠ y.id ∧ x.luciferin < y.luciferin ∧
        Glowworm.distance fsqrt x y < x.vision_range := by
    intro x y
    unfold Glowworm.is_neighbor
    by_cases h : x.id ≠ y.id ∧ x.luciferin < y.luciferin
    · rw [if_pos h]
      simp [h.1, h.2]
    · rw [if_neg h]
      simp only [Bool.false_eq_true, false_iff]
      intro hc
      exact h ⟨hc.1, hc.2.1⟩
  refine ⟨hiff a b, fun hab => ?_⟩
  have h1 := ((hiff a b).1 hab).2.1
  cases hba : Glowworm.is_neighbor fsqrt b a
  · rfl
  · exact absurd ((hiff b a).1 hba).2.1 (lt_asymm h1)

/-- C5 witness: concretely, at the zero square-root stand-in the dim
glowworm sees the bright one as neighbour, hence the reverse direction is
false. -/
theorem is_neighbor_characterisation_witness :
    Glowworm.is_neighbor zfun brightGlowworm baseGlowworm = false :=
  (is_neighbor_characterisation zfun baseGlowworm brightGlowworm).2 (by
    norm_num [Glowworm.is_neighbor, Glowworm.distance, baseGlowworm,
      brightGlowworm, Glowworm.new, zfun])

/-- C7: for every glowworm carrying the constructor's constants (beta 0.08,
max 5 neighbours, max vision range 5), `update_vision_range` sets the vision
range to the clamp of `vision_range + 0.08 * (5 - |neighbors|)` into
`[0, 5]`, and in particular the new vision range always lies in `[0, 5]`
whatever the neighbour count. -/
theorem update_vision_range_clamps (g : Glowworm) (hb : g.beta = 0.08)
    (hm : g.max_neighbors = 5) (hv : g.max_vision_range = 5) :
    g.update_vision_range.vision_range =
      min 5 (max 0 (g.vision_range +
        0.08 * ((5 : ℚ) - (g.neighbors.length : ℚ)))) ∧
    0 ≤ g.update_vision_range.vision_range ∧
    g.update_vision_range.vision_range ≤ 5 := by
  have hcast : (((g.max_neighbors : ℤ) - (g.neighbors.length : ℤ) : ℤ) : ℚ) =
      (5 : ℚ) - (g.neighbors.length : ℚ) := by
    rw [hm]; push_cast; ring
  refine ⟨?_, ?_, ?_⟩
  · simp only [Glowworm.update_vision_range, hb, hv, hcast]
  · simp only [Glowworm.update_vision_range, hv]
    exact le_min (by norm_num) (le_max_left 0 _)
  · simp only [Glowworm.update_vision_range, hv]
    exact min_le_left 5 _

/-- C7 witness: the fresh glowworm (vision range 0.2, no neighbours) ends at
3/5, inside `[0, 5]`. -/
theorem update_vision_range_clamps_witness :
    baseGlowworm.update_vision_range.vision_range =
      min 5 (max 0 (baseGlowworm.vision_range +
        0.08 * ((5 : ℚ) - (baseGlowworm.neighbors.length : ℚ)))) ∧
    0 ≤ baseGlowworm.update_vision_range.vision_range ∧
    baseGlowworm.update_vision_range.vision_range ≤ 5 :=
  update_vision_range_clamps baseGlowworm
    (by norm_num [baseGlowworm, Glowworm.new])
    (by norm_num [baseGlowworm, Glowworm.new])
    (by norm_num [baseGlowworm, Glowworm.new])

/-- When the accumulated sum already reaches `u`, the scan stops at once. -/
theorem selectScan_stop (u s : ℚ) (probs : List ℚ) (h : ¬ s < u) :
    selectScan u s probs = some 0 := by
  cases probs <;> simp [selectScan, h]

/-- With nonnegative entries whose total stays below `u`, the scan exhausts
the vector (the Rust loop indexes past the end and panics). -/
theorem selectScan_exhaust (u : ℚ) (probs : List ℚ) :
    ∀ s : ℚ, (∀ p ∈ probs, 0 ≤ p) → s + probs.sum < u →
      selectScan u s probs = none := by
  induction probs with
  | nil =>
    intro s _ h
    rw [List.sum_nil, add_zero] at h
    simp [selectScan, h]
  | cons p rest ih =>
    intro s hpos h
    rw [List.sum_cons] at h
    have hp : 0 ≤ p := hpos p (List.mem_cons_self p rest)
    have hrest : ∀ q ∈ rest, 0 ≤ q := fun q hq => hpos q (List.mem_cons_of_mem p hq)
    have hsum : 0 ≤ rest.sum := List.sum_nonneg hrest
    have hs : s < u := by linarith
    have := ih (s + p) hrest (by linarith)
    simp [selectScan, hs, this]

/-- With a total reaching `u`, the scan stops after consuming exactly the
shortest prefix whose sum reaches `u`. -/
theorem selectScan_reaches (u : ℚ) (probs : List ℚ) :
    ∀ s : ℚ, u ≤ s + probs.sum →
      ∃ k, selectScan u s probs = some k ∧ k ≤ probs.length ∧
        u ≤ s + (probs.take k).sum ∧
        ∀ j < k, s + (probs.take j).sum < u := by
  induction probs with
  | nil =>
    intro s h
    rw [List.sum_nil, add_zero] at h
    exact ⟨0, by simp [selectScan, not_lt.mpr h], Nat.le_refl 0,
      by simpa using h, fun j hj => absurd hj (Nat.not_lt_zero j)⟩
  | cons p rest ih =>
    intro s h
    by_cases hs : s < u
    · rw [List.sum_cons] at h
      obtain ⟨k, hscan, hk, hreach, hfirst⟩ := ih (s + p) (by linarith)
      refine ⟨k + 1, ?_, Nat.succ_le_succ hk, ?_, ?_⟩
      · simp [selectScan, hs, hscan]
      · rw [List.take_succ_cons, List.sum_cons, ← add_assoc]
        exact hreach
      · intro j hj
        cases j with
        | zero => simpa using hs
        | succ j' =>
          have := hfirst j' (Nat.lt_of_succ_lt_succ hj)
          rw [List.take_succ_cons, List.sum_cons, ← add_assoc]
          exact this
    · exact ⟨0, by simp [selectScan, hs], Nat.zero_le _,
        by simpa using not_lt.mp hs, fun j hj => absurd hj (Nat.not_lt_zero j)⟩

/-- C10 (amended): with a non-empty neighbour list, `select_random_neighbor`
called with random number 0 panics: the loop guard `0 < 0` fails at once, `i`
stays 0, and `self.neighbors[i - 1]` underflows the `usize` index.  The same
out-of-bounds panic (this time indexing past `self.probabilities`) occurs
whenever the random number is strictly greater than the total of the
(nonnegative) probability vector; at exactly the total the call instead
returns the last accumulated neighbour. -/
theorem select_random_neighbor_panics (g : Glowworm) (u : ℚ)
    (hne : g.neighbors ≠ []) :
    g.select_random_neighbor 0 = none ∧
    ((∀ p ∈ g.probabilities, 0 ≤ p) → g.probabilities.sum < u →
      g.select_random_neighbor u = none) := by
  constructor
  · unfold Glowworm.select_random_neighbor
    rw [if_neg hne, selectScan_stop 0 0 _ (lt_irrefl 0)]
    rfl
  · intro hpos hsum
    unfold Glowworm.select_random_neighbor
    rw [if_neg hne, selectScan_exhaust u g.probabilities 0 hpos
      (by rwa [zero_add])]

/-- C10 counterexample: `gw10` has probability vector `[1/3, 2/3]` with total
1; at random number 1 (which is `≥` the total) the claim predicts the
out-of-bounds panic, but the loop terminates normally and the call returns
the last neighbour, 5. -/
theorem select_random_neighbor_at_total :
    gw10.probabilities.sum = 1 ∧
    Glowworm.select_random_neighbor gw10 1 = some 5 := by
  constructor
  · norm_num [gw10, baseGlowworm, Glowworm.new]
  · have hne : ¬([4, 5] : List ℕ) = [] := by decide
    simp only [Glowworm.select_random_neighbor, gw10, baseGlowworm,
      Glowworm.new]
    rw [if_neg hne]
    norm_num [selectScan, List.get?]

/-- C10 witness: both panic paths on the concrete glowworm `gw10`: random
number 0, and random number 2 exceeding the total 1. -/
theorem select_random_neighbor_panics_witness :
    Glowworm.select_random_neighbor gw10 0 = none ∧
    Glowworm.select_random_neighbor gw10 2 = none :=
  ⟨(select_random_neighbor_panics gw10 2 (by decide)).1,
   (select_random_neighbor_panics gw10 2 (by decide)).2
     (by norm_num [gw10, baseGlowworm, Glowworm.new])
     (by norm_num [gw10, baseGlowworm, Glowworm.new])⟩

/-- C6 (amended): with an empty neighbour list `select_random_neighbor`
returns the glowworm's own id; otherwise, for `0 < u ≤ total`, the linear
scan consumes the shortest prefix whose running sum reaches or equals-or-
exceeds `u` (`sum ≥ u`, the complement of the loop guard `sum < u`) and
returns the neighbour at the matching index (`neighbors[k-1]` for `k`
consumed entries); at `u = 0`, and for `u` beyond the total, it panics
instead (see the companion claim on panics). -/
theorem select_random_neighbor_inverse_cdf (g : Glowworm) (u : ℚ) :
    (g.neighbors = [] → g.select_random_neighbor u = some g.id) ∧
    (g.neighbors ≠ [] → g.probabilities.length = g.neighbors.length →
      0 < u → u ≤ g.probabilities.sum →
      ∃ k, 0 < k ∧ k ≤ g.probabilities.length ∧
        u ≤ (g.probabilities.take k).sum ∧
        (∀ j < k, (g.probabilities.take j).sum < u) ∧
        g.select_random_neighbor u = some (g.neighbors.getD (k - 1) 0)) := by
  constructor
  · intro h
    unfold Glowworm.select_random_neighbor
    rw [if_pos h]
  · intro hne hlen hu0 hut
    obtain ⟨k, hscan, hk, hreach, hfirst⟩ :=
      selectScan_reaches u g.probabilities 0 (by rwa [zero_add])
    have hreach' : u ≤ (g.probabilities.take k).sum := by rwa [zero_add] at hreach
    have hfirst' : ∀ j < k, (g.probabilities.take j).sum < u := by
      intro j hj
      have := hfirst j hj
      rwa [zero_add] at this
    have hkpos : 0 < k := by
      rcases Nat.eq_zero_or_pos k with h0 | h0
      · subst h0
        rw [List.take_zero, List.sum_nil] at hreach'
        linarith
      · exact h0
    refine ⟨k, hkpos, hk, hreach', hfirst', ?_⟩
    unfold Glowworm.select_random_neighbor
    rw [if_neg hne, hscan]
    have hik : k - 1 < g.neighbors.length := by omega
    dsimp only
    rw [if_neg (Nat.pos_iff_ne_zero.mp hkpos), List.get?_eq_get hik]
    exact congrArg some (List.getD_eq_get g.neighbors 0 hik).symm

/-- C6 counterexample: `gw6` has neighbours `[3, 9]` and probabilities
`[1/2, 1/2]`.  At `u = 0` (a value of a uniform draw over `[0,1)`) the
claim's scan-until-the-sum-strictly-exceeds rule picks index 0 (neighbour
3), but the code panics; and at `u = 1/2` the claim's rule picks index 1
(neighbour 9, since `1/2` does not strictly exceed `1/2`), while the code
stops already at the first entry and returns neighbour 3. -/
theorem select_random_neighbor_first_exceed_refuted :
    Glowworm.select_random_neighbor gw6 0 = none ∧
    firstExceedIndex gw6.probabilities 0 = some 0 ∧
    Glowworm.select_random_neighbor gw6 (1/2) = some 3 ∧
    firstExceedIndex gw6.probabilities (1/2) = some 1 ∧
    gw6.neighbors.getD 1 0 = 9 := by
  refine ⟨?_, ?_, ?_, ?_, by decide⟩
  · exact (select_random_neighbor_panics gw6 1 (by decide)).1
  · simp only [firstExceedIndex, gw6, baseGlowworm, Glowworm.new]
    norm_num [List.find?, List.range]
  · have hne : ¬([3, 9] : List ℕ) = [] := by decide
    simp only [Glowworm.select_random_neighbor, gw6, baseGlowworm,
      Glowworm.new]
    rw [if_neg hne]
    norm_num [selectScan, List.get?]
  · simp only [firstExceedIndex, gw6, baseGlowworm, Glowworm.new]
    norm_num [List.find?, List.range]

/-- C6 witness: on `gw6` with `u = 1/2` the amended characterisation applies
and yields a neighbour. -/
theorem select_random_neighbor_inverse_cdf_witness :
    ∃ k, 0 < k ∧ k ≤ gw6.probabilities.length ∧
      (1/2 : ℚ) ≤ (gw6.probabilities.take k).sum ∧
      (∀ j < k, (gw6.probabilities.take j).sum < 1/2) ∧
      Glowworm.select_random_neighbor gw6 (1/2) =
        some (gw6.neighbors.getD (k - 1) 0) :=
  (select_random_neighbor_inverse_cdf gw6 (1/2)).2 (by decide) (by decide)
    (by norm_num) (by norm_num [gw6, baseGlowworm, Glowworm.new])

/-- On the recompute branch (`moved` or first step), `compute_luciferin`
stores the biased score built from the scoring contract's energy and the
returned interface vectors. -/
theorem compute_luciferin_scoring_recompute (score : ScoreFn) (g : Glowworm)
    (h : g.moved = true ∨ g.step = 0) :
    (g.compute_luciferin score).scoring =
      (let rc := poseReceptor g.receptor.coordinates g.receptor.nmodes
         g.receptor.num_anm g.use_anm g.rec_nmodes
       let lc := poseLigand g.ligand.coordinates g.ligand.nmodes
         g.ligand.num_anm g.use_anm g.translation g.rotation g.lig_nmodes
       let r := score.energy g.receptor g.ligand rc lc
         (List.replicate rc.length 0) (List.replicate lc.length 0)
       let inter := membrane_intersection r.2.1 g.receptor.membrane
       r.1 + satisfied_restraints r.2.1 g.receptor.active_restraints * r.1 +
         satisfied_restraints r.2.2 g.ligand.active_restraints * r.1 -
         (if inter > 0 then MEMBRANE_PENALTY_SCORE * inter else 0)) := by
  simp only [Glowworm.compute_luciferin, if_pos h]

/-- Off the recompute branch, `compute_luciferin` leaves `scoring`
unchanged. -/
theorem compute_luciferin_scoring_skip (score : ScoreFn) (g : Glowworm)
    (h : ¬(g.moved = true ∨ g.step = 0)) :
    (g.compute_luciferin score).scoring = g.scoring := by
  simp only [Glowworm.compute_luciferin, if_neg h]

/-- In every call, the luciferin update uses the (possibly refreshed)
scoring value. -/
theorem compute_luciferin_luciferin_update (score : ScoreFn) (g : Glowworm) :
    (g.compute_luciferin score).luciferin =
      (1 - g.rho) * g.luciferin +
        g.gamma * (g.compute_luciferin score).scoring := by
  by_cases h : g.moved = true ∨ g.step = 0 <;>
    simp only [Glowworm.compute_luciferin, if_pos, if_neg, h]

/-- In every call, the step counter increments by one. -/
theorem compute_luciferin_step_incr (score : ScoreFn) (g : Glowworm) :
    (g.compute_luciferin score).step = g.step + 1 := by
  by_cases h : g.moved = true ∨ g.step = 0 <;>
    simp only [Glowworm.compute_luciferin, if_pos, if_neg, h]

/-- C2: `compute_luciferin` recomputes the scoring field through the scoring
contract exactly when `moved` is set or the step counter is 0 (otherwise the
scoring field is untouched), then always sets
`luciferin = (1 - rho) * luciferin + gamma * scoring` and increments the
step counter; the constructor fixes `rho = 0.5` and `gamma = 0.4`. -/
theorem compute_luciferin_contract (score : ScoreFn) (g : Glowworm) :
    ((g.moved = true ∨ g.step = 0) →
      (g.compute_luciferin score).scoring =
        (let rc := poseReceptor g.receptor.coordinates g.receptor.nmodes
           g.receptor.num_anm g.use_anm g.rec_nmodes
         let lc := poseLigand g.ligand.coordinates g.ligand.nmodes
           g.ligand.num_anm g.use_anm g.translation g.rotation g.lig_nmodes
         let r := score.energy g.receptor g.ligand rc lc
           (List.replicate rc.length 0) (List.replicate lc.length 0)
         let inter := membrane_intersection r.2.1 g.receptor.membrane
         r.1 + satisfied_restraints r.2.1 g.receptor.active_restraints * r.1 +
           satisfied_restraints r.2.2 g.ligand.active_restraints * r.1 -
           (if inter > 0 then MEMBRANE_PENALTY_SCORE * inter else 0))) ∧
    (¬(g.moved = true ∨ g.step = 0) →
      (g.compute_luciferin score).scoring = g.scoring) ∧
    (g.compute_luciferin score).luciferin =
      (1 - g.rho) * g.luciferin +
        g.gamma * (g.compute_luciferin score).scoring ∧
    (g.compute_luciferin score).step = g.step + 1 ∧
    (∀ (i : ℕ) (t : List ℚ) (r : Quat) (rn ln : List ℚ)
        (dmr dml : DockingModel) (ua : Bool),
      (Glowworm.new i t r rn ln dmr dml ua).rho = 0.5 ∧
        (Glowworm.new i t r rn ln dmr dml ua).gamma = 0.4) :=
  ⟨compute_luciferin_scoring_recompute score g,
   compute_luciferin_scoring_skip score g,
   compute_luciferin_luciferin_update score g,
   compute_luciferin_step_incr score g,
   fun _ _ _ _ _ _ _ _ => ⟨rfl, rfl⟩⟩

/-- C2 witness: on the fresh glowworm (step 0) with the constant-7 contract,
the scoring is refreshed to 7, the luciferin becomes
`0.5 * 5 + 0.4 * 7 = 5.3`, and the step counter becomes 1. -/
theorem compute_luciferin_contract_witness :
    (baseGlowworm.compute_luciferin scoreConst).scoring = 7 ∧
    (baseGlowworm.compute_luciferin scoreConst).luciferin = 5.3 ∧
    (baseGlowworm.compute_luciferin scoreConst).step = 1 := by
  have h := compute_luciferin_contract scoreConst baseGlowworm
  have hsc : (baseGlowworm.compute_luciferin scoreConst).scoring = 7 := by
    rw [h.1 (Or.inr rfl)]
    norm_num [poseReceptor, poseLigand, scoreConst, baseGlowworm,
      Glowworm.new, emptyDM, satisfied_restraints, membrane_intersection]
  refine ⟨hsc, ?_, h.2.2.2.1⟩
  rw [h.2.2.1, hsc]
  norm_num [baseGlowworm, Glowworm.new]

/-- C1: every energy evaluation ends in the same bias composition.  On the
recompute branch `compute_luciferin` stores
`e + recFrac * e + ligFrac * e - membranePenalty` where `e` is the scoring
contract's raw energy and the fractions come from the returned interface
vectors; `DFIRE::energy` returns the identical composition of its converted
pairwise sum; `DNA::energy` returns the identical composition of its
electrostatics + van der Waals sum; in each the membrane penalty is
`MEMBRANE_PENALTY_SCORE * intersection` when the intersection fraction is
positive and 0 otherwise. -/
theorem biased_scoring_composition :
    (∀ (score : ScoreFn) (g : Glowworm), (g.moved = true ∨ g.step = 0) →
      (g.compute_luciferin score).scoring =
        (let rc := poseReceptor g.receptor.coordinates g.receptor.nmodes
           g.receptor.num_anm g.use_anm g.rec_nmodes
         let lc := poseLigand g.ligand.coordinates g.ligand.nmodes
           g.ligand.num_anm g.use_anm g.translation g.rotation g.lig_nmodes
         let r := score.energy g.receptor g.ligand rc lc
           (List.replicate rc.length 0) (List.replicate lc.length 0)
         let inter := membrane_intersection r.2.1 g.receptor.membrane
         r.1 + satisfied_restraints r.2.1 g.receptor.active_restraints * r.1 +
           satisfied_restraints r.2.2 g.ligand.active_restraints * r.1 -
           (if inter > 0 then MEMBRANE_PENALTY_SCORE * inter else 0))) ∧
    (∀ (fsqrt : ℚ → ℚ) (d : DFIRE) (translation : List ℚ) (rotation : Quat)
        (rec_nmodes lig_nmodes : List ℚ),
      DFIRE.energy fsqrt d translation rotation rec_nmodes lig_nmodes =
        (let rc := poseReceptor d.receptor.coordinates d.receptor.nmodes
           d.receptor.num_anm d.use_anm rec_nmodes
         let lc := poseLigand d.ligand.coordinates d.ligand.nmodes
           d.ligand.num_anm d.use_anm translation rotation lig_nmodes
         let r := dfireLoop fsqrt d rc lc
         let s := (r.1 * 0.0157 - 4.7) * (-1)
         let inter := membrane_intersection r.2.1 d.receptor.membrane
         s + satisfied_restraints r.2.1 d.receptor.active_restraints * s +
           satisfied_restraints r.2.2 d.ligand.active_restraints * s -
           (if inter > 0 then MEMBRANE_PENALTY_SCORE * inter else 0))) ∧
    (∀ (fsqrt : ℚ → ℚ) (d : DNA) (translation : List ℚ) (rotation : Quat)
        (rec_nmodes lig_nmodes : List ℚ),
      DNA.energy fsqrt d translation rotation rec_nmodes lig_nmodes =
        (let rc := poseReceptor d.receptor.coordinates d.receptor.nmodes
           d.receptor.num_anm d.use_anm rec_nmodes
         let lc := poseLigand d.ligand.coordinates d.ligand.nmodes
           d.ligand.num_anm d.use_anm translation rotation lig_nmodes
         let r := dnaLoop fsqrt d rc lc
         let s := (r.1 * FACTOR / EPSILON + r.2.1) * (-1)
         let inter := membrane_intersection r.2.2.1 d.receptor.membrane
         s + satisfied_restraints r.2.2.1 d.receptor.active_restraints * s +
           satisfied_restraints r.2.2.2 d.ligand.active_restraints * s -
           (if inter > 0 then MEMBRANE_PENALTY_SCORE * inter else 0))) :=
  ⟨fun score g h => compute_luciferin_scoring_recompute score g h,
   fun _ _ _ _ _ _ => rfl,
   fun _ _ _ _ _ _ => rfl⟩

/-- C1 witness: with the one-atom membrane/restraint model and the contract
flagging every atom at energy 10, the biased scoring is
`10 + 1*10 + 1*10 - 999 = -969`. -/
theorem biased_scoring_composition_witness :
    (gwC1.compute_luciferin scoreFlag).scoring = -969 := by
  rw [biased_scoring_composition.1 scoreFlag gwC1 (Or.inr rfl)]
  norm_num [poseReceptor, poseLigand, scoreFlag, gwC1, Glowworm.new, dmW,
    satisfied_restraints, membrane_intersection, MEMBRANE_PENALTY_SCORE]

/-- The sequential fallible movement loop preserves the population size. -/
theorem optionIMap_length (f : ℕ → Glowworm → Option Glowworm) :
    ∀ (i : ℕ) (l l' : List Glowworm), optionIMap f i l = some l' →
      l'.length = l.length := by
  intro i l
  induction l generalizing i with
  | nil =>
    intro l' h
    simp only [optionIMap, Option.some.injEq] at h
    subst h
    rfl
  | cons a rest ih =>
    intro l' h
    simp only [optionIMap] at h
    cases hf : f i a with
    | none => rw [hf] at h; simp at h
    | some b =>
      rw [hf] at h
      rw [Option.map_eq_some'] at h
      obtain ⟨rest', hrest, hl⟩ := h
      subst hl
      simp [ih (i + 1) rest' hrest]

/-- Pointwise description of the sequential fallible movement loop: the
`j`-th output comes from applying the body at index `i + j` to the `j`-th
input. -/
theorem optionIMap_get? (f : ℕ → Glowworm → Option Glowworm) :
    ∀ (i : ℕ) (l l' : List Glowworm), optionIMap f i l = some l' →
      ∀ (j : ℕ) (a b : Glowworm), l.get? j = some a → l'.get? j = some b →
        f (i + j) a = some b := by
  intro i l
  induction l generalizing i with
  | nil => intro l' h j a b ha _; simp at ha
  | cons x rest ih =>
    intro l' h j a b ha hb
    simp only [optionIMap] at h
    cases hf : f i x with
    | none => rw [hf] at h; simp at h
    | some y =>
      rw [hf] at h
      rw [Option.map_eq_some'] at h
      obtain ⟨rest', hrest, hl⟩ := h
      subst hl
      cases j with
      | zero =>
        simp only [List.get?, Option.some.injEq] at ha hb
        subst ha
        subst hb
        simpa using hf
      | succ j' =>
        have harith : i + 1 + j' = i + (j' + 1) := by omega
        have := ih (i + 1) rest' hrest j' a b (by simpa using ha)
          (by simpa using hb)
        rwa [harith] at this

/-- The neighbour/probability pass preserves the population size. -/
theorem movementPrep_length (fsqrt : ℚ → ℚ) (s : Swarm) :
    (Swarm.movementPrep fsqrt s).length = s.glowworms.length := by
  simp [Swarm.movementPrep]

/-- C3: whenever `movement_phase` completes, every glowworm's final state is
obtained by `move_towards` toward the selected neighbour's translation,
rotation and mode-coefficient vectors as they were in `s`, the swarm at the
start of the phase (the maps over `s.glowworms` below are the snapshot), so
a neighbour that moved earlier in the same phase is still seen at its
pre-phase pose. -/
theorem movement_phase_snapshot (fsqrt facos fsin : ℚ → ℚ) (s : Swarm)
    (rand : ℕ → ℚ) (s' : Swarm)
    (h : Swarm.movement_phase fsqrt facos fsin s rand = some s') :
    s'.glowworms.length = s.glowworms.length ∧
    ∀ (i : ℕ) (gp g' : Glowworm),
      (Swarm.movementPrep fsqrt s).get? i = some gp →
      s'.glowworms.get? i = some g' →
      ∃ nid, gp.select_random_neighbor (rand i) = some nid ∧
        g' = Glowworm.update_vision_range
          (gp.move_towards fsqrt facos fsin nid
            ((s.glowworms.map (·.translation)).getD nid [])
            ((s.glowworms.map (·.rotation)).getD nid (Quat.new 1 0 0 0))
            ((s.glowworms.map (·.rec_nmodes)).getD nid [])
            ((s.glowworms.map (·.lig_nmodes)).getD nid [])) := by
  simp only [Swarm.movement_phase] at h
  rw [Option.map_eq_some'] at h
  obtain ⟨l', hIM, hmk⟩ := h
  subst hmk
  constructor
  · exact (optionIMap_length _ 0 _ _ hIM).trans (movementPrep_length fsqrt s)
  · intro i gp g' hgp hg'
    have hstep := optionIMap_get? _ 0 _ _ hIM i gp g' hgp hg'
    rw [Nat.zero_add] at hstep
    cases hsel : gp.select_random_neighbor (rand i) with
    | none => rw [hsel] at hstep; simp at hstep
    | some nid =>
      rw [hsel] at hstep
      simp only [Option.some.injEq] at hstep
      exact ⟨nid, rfl, hstep.symm⟩

/-- C3 witness: a one-glowworm swarm completes the phase; the output is the
state where only the vision range changed. -/
theorem movement_phase_snapshot_witness :
    swarmC3'.glowworms.length = swarmC3.glowworms.length :=
  (movement_phase_snapshot zfun zfun zfun swarmC3 (fun _ => 0) swarmC3'
    (by norm_num [Swarm.movement_phase, Swarm.movementPrep, optionIMap,
      Glowworm.select_random_neighbor, Glowworm.move_towards,
      Glowworm.update_vision_range,
      Glowworm.compute_probability_moving_toward_neighbor,
      swarmC3, swarmC3', baseGlowworm, Glowworm.new, emptyDM,
      List.enum, List.enumFrom, zfun])).1

/-- Finite IEEE subtraction of a value from itself gives (positive) zero. -/
theorem fp_sub_self (a : ℚ) : FP.finite a - FP.finite a = FP.finite 0 := by
  show FP.sub _ _ = _
  simp [FP.sub, FP.neg, FP.add]

/-- Zero times zero. -/
theorem fp_zero_mul_zero : FP.finite 0 * FP.finite 0 = FP.finite 0 := by
  show FP.mul _ _ = _
  simp [FP.mul]

/-- Adding (positive) zero is the identity on every IEEE value. -/
theorem fp_add_zero (x : FP) : x + FP.finite 0 = x := by
  cases x with
  | finite a => show FP.add _ _ = _; simp [FP.add]
  | inf => rfl
  | ninf => rfl
  | nan => rfl

/-- Square root of (positive) zero. -/
theorem fp_sqrt_zero : FP.sqrtF (FP.finite 0) = FP.finite 0 := by
  simp [FP.sqrtF]

/-- The step scaling at zero norm: `0.5 / 0 = +inf`. -/
theorem fp_half_div_zero :
    FP.finite DEFAULT_TRANSLATION_STEP / FP.finite 0 = FP.inf := by
  show FP.div _ _ = _
  norm_num [FP.div, DEFAULT_TRANSLATION_STEP]

/-- Zero times infinity is NaN. -/
theorem fp_zero_mul_inf : FP.finite 0 * FP.inf = FP.nan := by
  show FP.mul _ _ = _
  simp [FP.mul]

/-- Adding NaN poisons every IEEE value. -/
theorem fp_add_nan (x : FP) : x + FP.nan = FP.nan := by
  cases x <;> rfl

/-- Folding the squared-norm accumulator over zeros leaves the accumulator
unchanged. -/
theorem fp_fold_sq_zeros (l : List FP) (h : ∀ x ∈ l, x = FP.finite 0) :
    ∀ acc : FP, l.foldl (fun a d => a + d * d) acc = acc := by
  induction l with
  | nil => intro acc; rfl
  | cons x rest ih =>
    intro acc
    have hx : x = FP.finite 0 := h x (List.mem_cons_self x rest)
    have hrest : ∀ y ∈ rest, y = FP.finite 0 := fun y hy =>
      h y (List.mem_cons_of_mem x hy)
    rw [List.foldl_cons, hx, fp_zero_mul_zero, fp_add_zero]
    exact ih hrest acc

/-- Every element of a list of zeros reads back as zero, in or out of
range. -/
theorem fp_getD_zeros (l : List FP) (h : ∀ x ∈ l, x = FP.finite 0) (i : ℕ) :
    l.getD i (FP.finite 0) = FP.finite 0 := by
  rcases Nat.lt_or_ge i l.length with hi | hi
  · rw [List.getD_eq_getElem l _ hi]
    exact h _ (l.getElem_mem hi)
  · exact List.getD_eq_default l _ hi

/-- A positive finite value divided by (positive) zero is `+inf`. -/
theorem fp_pos_div_zero (q : ℚ) (hq : 0 < q) :
    FP.finite q / FP.finite 0 = FP.inf := by
  show FP.div _ _ = _
  simp [FP.div, hq]

/-- C8: in `move_towards` with a target id different from the glowworm's
own id, a target position exactly coinciding with the glowworm's own
translation makes the unguarded step scaling divide by zero
(`0.5 / 0 = +inf`) and every resulting translation component is NaN
(`0 * inf`); likewise, a zero-norm ANM coefficient delta makes every
resulting mode-coefficient NaN. -/
theorem move_towards_zero_norm_nan :
    (∀ t0 t1 t2 : ℚ,
      moveTranslationFP (FP.finite t0) (FP.finite t1) (FP.finite t2)
        (FP.finite t0) (FP.finite t1) (FP.finite t2) =
        (FP.nan, FP.nan, FP.nan)) ∧
    (∀ l : List ℚ,
      moveCoeffsFP (l.map FP.finite) (l.map FP.finite) =
        List.replicate l.length FP.nan) := by
  have hdiv : FP.finite DEFAULT_TRANSLATION_STEP / FP.finite 0 = FP.inf :=
    fp_pos_div_zero _ (by norm_num [DEFAULT_TRANSLATION_STEP])
  have hdivn : FP.finite DEFAULT_NMODES_STEP / FP.finite 0 = FP.inf :=
    fp_pos_div_zero _ (by norm_num [DEFAULT_NMODES_STEP])
  constructor
  · intro t0 t1 t2
    simp only [moveTranslationFP, fp_sub_self, fp_zero_mul_zero, fp_add_zero,
      fp_sqrt_zero, hdiv, fp_zero_mul_inf, fp_add_nan]
  · intro l
    have hd : ∀ i : ℕ, (l.map FP.finite).getD i (FP.finite 0) -
        (l.map FP.finite).getD i (FP.finite 0) = FP.finite 0 := by
      intro i
      rw [List.getD_map l 0 FP.finite, fp_sub_self]
    simp only [moveCoeffsFP, List.length_map, hd, List.map_const',
      List.length_range]
    rw [fp_fold_sq_zeros _ (fun x hx => List.eq_of_mem_replicate hx) _,
      fp_sqrt_zero, hdivn]
    have hrep : ∀ i : ℕ,
        (List.replicate l.length (FP.finite 0)).getD i (FP.finite 0) =
          FP.finite 0 :=
      fun i => fp_getD_zeros _ (fun x hx => List.eq_of_mem_replicate hx) i
    simp only [hrep, fp_zero_mul_inf, fp_add_nan, List.map_const',
      List.length_range]

/-- The first three `getD` reads of a list of length at least 3 are its
3-element prefix. -/
theorem getD_prefix3 (p : List ℚ) (h : 3 ≤ p.length) :
    [p.getD 0 0, p.getD 1 0, p.getD 2 0] = p.take 3 := by
  rcases p with _ | ⟨a, _ | ⟨b, _ | ⟨c, rest⟩⟩⟩ <;> simp_all

/-- Reading indices `a, a+1, …, a+n-1` of `p` through `getD` slices out
`(p.drop a).take n` when the range is in bounds. -/
theorem range'_map_getD (p : List ℚ) :
    ∀ (n a : ℕ), a + n ≤ p.length →
      (List.range' a n).map (fun j => p.getD j 0) = (p.drop a).take n := by
  intro n
  induction n with
  | zero => intro a _; simp
  | succ m ih =>
    intro a h
    have ha : a < p.length := by omega
    rw [List.range'_succ, List.map_cons, ih (a + 1) (by omega),
      List.drop_eq_getElem_cons ha, List.take_succ_cons,
      List.getD_eq_getElem p _ ha]

/-- C9: starting from an empty swarm, `add_glowworms` builds one glowworm
per input vector, the `i`-th getting id `i`, translation from components
0-2, the rotation quaternion from components 3-6 in `(w,x,y,z)` order, and,
when ANM is enabled and the vector has the expected length, receptor mode
coefficients from the next `receptor.num_anm` components followed by ligand
mode coefficients up to the end of the vector; without ANM both coefficient
vectors are empty. -/
theorem add_glowworms_decode (positions : List (List ℚ))
    (receptor ligand : DockingModel) (use_anm : Bool) :
    (Swarm.add_glowworms ⟨[]⟩ positions receptor ligand
        use_anm).glowworms.length = positions.length ∧
    ∀ (i : ℕ) (p : List ℚ) (g : Glowworm),
      positions.get? i = some p →
      (Swarm.add_glowworms ⟨[]⟩ positions receptor ligand
        use_anm).glowworms.get? i = some g →
      g.id = i ∧
      g.translation = [p.getD 0 0, p.getD 1 0, p.getD 2 0] ∧
      (3 ≤ p.length → g.translation = p.take 3) ∧
      g.rotation = Quat.new (p.getD 3 0) (p.getD 4 0) (p.getD 5 0)
        (p.getD 6 0) ∧
      (use_anm = false → g.rec_nmodes = [] ∧ g.lig_nmodes = []) ∧
      (use_anm = true → p.length = 7 + receptor.num_anm + ligand.num_anm →
        g.rec_nmodes = (p.drop 7).take receptor.num_anm ∧
        g.lig_nmodes = p.drop (7 + receptor.num_anm)) := by
  constructor
  · simp [Swarm.add_glowworms]
  · intro i p g hp hg
    simp only [Swarm.add_glowworms, List.nil_append, List.get?_map,
      List.get?_enum, hp, Option.map_some', Option.some.injEq] at hg
    subst hg
    refine ⟨rfl, rfl, fun h3 => getD_prefix3 p h3, rfl, ?_, ?_⟩
    · intro hfalse
      subst hfalse
      simp [Glowworm.new]
    · intro htrue hlen
      subst htrue
      constructor
      · rcases Nat.eq_zero_or_pos receptor.num_anm with hR | hR
        · simp [Glowworm.new, hR]
        · simp only [Glowworm.new, true_and]
          rw [if_pos hR]
          exact range'_map_getD p receptor.num_anm 7 (by omega)
      · rcases Nat.eq_zero_or_pos ligand.num_anm with hL | hL
        · have hdrop : p.drop (7 + receptor.num_anm) = [] :=
            List.drop_eq_nil_of_le (by omega)
          simp [Glowworm.new, hL, hdrop]
        · simp only [Glowworm.new, true_and]
          rw [if_pos hL, range'_map_getD p (p.length - (7 + receptor.num_anm))
            (7 + receptor.num_anm) (by omega)]
          rw [← List.length_drop, List.take_length]

/-- C9 witness: decoding the single 7-component vector `posW0` yields one
glowworm with id 0, translation `[1,2,3]`, rotation `(4,5,6,7)` and empty
mode-coefficient vectors. -/
theorem add_glowworms_decode_witness :
    (Swarm.add_glowworms ⟨[]⟩ posW emptyDM emptyDM
      false).glowworms.length = posW.length ∧
    (gW9.id = 0 ∧
     gW9.translation = [posW0.getD 0 0, posW0.getD 1 0, posW0.getD 2 0] ∧
     (3 ≤ posW0.length → gW9.translation = posW0.take 3) ∧
     gW9.rotation = Quat.new (posW0.getD 3 0) (posW0.getD 4 0)
       (posW0.getD 5 0) (posW0.getD 6 0) ∧
     (false = false → gW9.rec_nmodes = [] ∧ gW9.lig_nmodes = []) ∧
     (false = true → posW0.length = 7 + emptyDM.num_anm + emptyDM.num_anm →
       gW9.rec_nmodes = (posW0.drop 7).take emptyDM.num_anm ∧
       gW9.lig_nmodes = posW0.drop (7 + emptyDM.num_anm))) :=
  ⟨(add_glowworms_decode posW emptyDM emptyDM false).1,
   (add_glowworms_decode posW emptyDM emptyDM false).2 0 posW0 gW9 rfl rfl⟩
